import Mathlib

/-!
Verification of the filter/combinator core of `warp` (src/filter/mod.rs).

The module under `src/` declares the combinator constructors (`Filter::and`,
`Filter::or`, `Filter::map`, `Filter::or_else`, `Filter::recover`,
`Filter::unify`, `FilterBase::unit`) together with their type bounds, and
contains the full code of `filter_fn`, `filter_fn_one` and `tup_one`.
The bodies of the combinator state machines (`and.rs`, `or.rs`, `map.rs`,
`or_else.rs`, `recover.rs`, `unify.rs`, `unit.rs`) and the generic
tuple-flattening algebra (`generic.rs`: `Tuple`, `HList`, `Combine`,
`Either`, `Func`, `one`) and rejection algebra (`reject.rs`:
`CombineRejection`) are referenced but not present; those parts are
modelled from the specification, as noted on each definition.

A filter evaluation is embedded as a state-passing function: the routing
context (an opaque mutable cursor in the source) becomes an explicit state
`σ`, the asynchronous computation returned by `filter()` becomes its
resolved outcome `Except ε (HList ts)` paired with the final context state.
The extracted tuple of a filter is a heterogeneous list over its list of
element types, built as nested pairs exactly like the source's
`Product<H, T>` cons cells with `HNil` at the end.
-/

namespace Warp

/-- Modelled from the spec: `generic.rs` (not under src/) defines `HList`
as cons-cell style products `Product<H, T>` ending in `HNil`, isomorphic
to the extracted `Tuple`.  `HList ts` is the heterogeneous list whose
element types are listed by `ts`; `HList []` is the empty tuple (arity 0,
"nothing extracted"). -/
def HList : List Type → Type
  | [] => Unit
  | t :: ts => t × HList ts

theorem HList_nil : HList [] = Unit := rfl

theorem HList_cons (t : Type) (ts : List Type) : HList (t :: ts) = (t × HList ts) := rfl

/-- Modelled from the spec: `generic.rs`'s `Combine` concatenates two
heterogeneous lists: `HNil.combine(other) = other` and
`Product(h, t).combine(other) = Product(h, t.combine(other))`. -/
def HList.combine {ts us : List Type} (a : HList ts) (b : HList us) : HList (ts ++ us) :=
  match ts, a with
  | [], _ => b
  | _ :: _, a => (a.1, HList.combine a.2 b)

/-- The elements of a heterogeneous list, in order, each packaged with its
type; used to state order preservation and flatness of `combine`. -/
def HList.toList : {ts : List Type} → HList ts → List ((t : Type) × t)
  | [], _ => []
  | t :: _, a => ⟨t, a.1⟩ :: HList.toList a.2

/-- Modelled from the spec: `generic.rs`'s `one` wraps a single value into
a one-element tuple. -/
def one {t : Type} (x : t) : HList [t] := (x, ())

/-- Modelled from the spec: `generic.rs`'s `Either<L, R>` is a tagged
union with exactly two variants, produced by `Or` to record which branch
succeeded. -/
inductive Either (L R : Type) : Type
  | left : L → Either L R
  | right : R → Either L R

/-- Collapsing an `Either` whose two arms carry the same type by
discarding the tag; this is the projection `unify.rs` performs. -/
def Either.collapse {T : Type} : Either T T → T
  | .left t => t
  | .right t => t

/-- A pipeline node (`FilterBase`): its one operation `filter()` evaluates
against the routing context and yields either the extracted heterogeneous
list or a failure, together with the resulting context state. -/
structure Filter (σ ε : Type) (ts : List Type) : Type where
  filter : σ → Except ε (HList ts) × σ

/-- Modelled from the spec: `reject.rs`'s `CombineRejection` (not under
src/) computes a single failure type `ε` representable from either side's
failure type, with an injection from each side and a combination for the
case in which both branches of an `Or` were attempted and failed. -/
structure CombineRejection (ε1 ε2 ε : Type) : Type where
  unifyLeft : ε1 → ε
  unifyRight : ε2 → ε
  combine : ε1 → ε2 → ε

/-- `Filter::and` (mod.rs lines 121-133) sequential conjunction.
Modelled from the spec: `and.rs` is not under src/; the spec gives a
two-phase sequential state machine: evaluate `A`; on failure short-circuit
with `A`'s failure unified; on success evaluate `B` on the same advanced
context; on `B`'s failure propagate it unified; on both successes
concatenate the extracted tuples with the `Combine` algebra. -/
def Filter.and {σ ε1 ε2 ε : Type} {as bs : List Type}
    (A : Filter σ ε1 as) (B : Filter σ ε2 bs) (cr : CombineRejection ε1 ε2 ε) :
    Filter σ ε (as ++ bs) :=
  ⟨fun s =>
    match A.filter s with
    | (.error e, s1) => (.error (cr.unifyLeft e), s1)
    | (.ok a, s1) =>
      match B.filter s1 with
      | (.error e, s2) => (.error (cr.unifyRight e), s2)
      | (.ok b, s2) => (.ok (a.combine b), s2)⟩

/-- `Filter::or` (mod.rs lines 147-157) alternative.
Modelled from the spec: `or.rs` is not under src/; the spec says: evaluate
`A`; on success succeed with `Either::Left`; on failure evaluate `B`
against a context reset to the original starting state; on `B`'s success
succeed with `Either::Right`; on both failing combine the rejections. -/
def Filter.or {σ ε1 ε2 ε : Type} {as bs : List Type}
    (A : Filter σ ε1 as) (B : Filter σ ε2 bs) (cr : CombineRejection ε1 ε2 ε) :
    Filter σ ε [Either (HList as) (HList bs)] :=
  ⟨fun s =>
    match A.filter s with
    | (.ok a, s1) => (.ok (one (.left a)), s1)
    | (.error e1, _) =>
      match B.filter s with
      | (.ok b, s2) => (.ok (one (.right b)), s2)
      | (.error e2, s2) => (.error (cr.combine e1 e2), s2)⟩

/-- `Filter::map` (mod.rs lines 200-209).
Modelled from the spec: `map.rs` is not under src/; the spec says: on
success apply the pure function to the extracted tuple (`Func::call`
receives the whole tuple) and succeed with a one-element tuple wrapping
its return value; on failure propagate unchanged; never fails on its
own. -/
def Filter.map {σ ε β : Type} {ts : List Type}
    (A : Filter σ ε ts) (f : HList ts → β) : Filter σ ε [β] :=
  ⟨fun s =>
    match A.filter s with
    | (.ok a, s1) => (.ok (one (f a)), s1)
    | (.error e, s1) => (.error e, s1)⟩

/-- `Filter::or_else` (mod.rs lines 248-259).
Modelled from the spec: `or_else.rs` is not under src/; the bound in
mod.rs fixes the callback's computation to yield `A`'s original extracted
type and `A`'s original failure type; the spec says: on success pass
through unchanged; on failure invoke the function with the failure value
and yield its computation's outcome instead.  The callback's computation
has no access to the routing context, so it is embedded as its resolved
outcome. -/
def Filter.or_else {σ ε : Type} {ts : List Type}
    (A : Filter σ ε ts) (f : ε → Except ε (HList ts)) : Filter σ ε ts :=
  ⟨fun s =>
    match A.filter s with
    | (.ok a, s1) => (.ok a, s1)
    | (.error e, s1) => (f e, s1)⟩

/-- `Filter::recover` (mod.rs lines 268-279).
Modelled from the spec: `recover.rs` is not under src/; the bound in
mod.rs leaves the callback's success type `β` unconstrained and fixes its
failure type to `A`'s failure type; the spec says the composed extracted
type becomes `Either` of `A`'s extract and the recovery's extract; on
`A`'s success the outcome passes through (tagged left, recovery not
invoked); on `A`'s failure the recovery computation's success is tagged
right, its failure propagates. -/
def Filter.recover {σ ε β : Type} {as : List Type}
    (A : Filter σ ε as) (f : ε → Except ε β) :
    Filter σ ε [Either (HList as) (HList [β])] :=
  ⟨fun s =>
    match A.filter s with
    | (.ok a, s1) => (.ok (one (.left a)), s1)
    | (.error e, s1) =>
      match f e with
      | .ok b => (.ok (one (.right (one b))), s1)
      | .error e2 => (.error e2, s1)⟩

/-- `Filter::unify` (mod.rs lines 303-311): accepted only on a filter
whose extract is the one-element tuple `(Either<T, T>,)` with `T: Tuple`.
Modelled from the spec: `unify.rs` is not under src/; the spec says it
collapses the tagged union by discarding the tag, never failing on its
own. -/
def Filter.unify {σ ε : Type} {ts : List Type}
    (A : Filter σ ε [Either (HList ts) (HList ts)]) : Filter σ ε ts :=
  ⟨fun s =>
    match A.filter s with
    | (.ok x, s1) => (.ok x.1.collapse, s1)
    | (.error e, s1) => (.error e, s1)⟩

/-- The extract demanded of `FilterBase::unit`'s input filter by the bound
`Self: Filter<Extract=((),)>` at mod.rs line 57: the one-element tuple
whose single element is the unit type. -/
def unitInputExtract : List Type := [Unit]

/-- `FilterBase::unit` (mod.rs lines 55-62).
Modelled from the spec: `unit.rs` is not under src/; the spec describes
`Unit` as an internal normalization step letting such filters participate
uniformly in wrapping/boxing code paths; it is embedded as transparent on
evaluation.  The input bound is taken from mod.rs line 57. -/
def Filter.unit {σ ε : Type} (A : Filter σ ε unitInputExtract) :
    Filter σ ε unitInputExtract :=
  ⟨A.filter⟩

/-- `filter_fn` (mod.rs lines 387-397 and 424-442): builds a filter whose
`filter()` hands the routing context to the supplied function and returns
the function's computation. -/
def filter_fn {σ ε : Type} {ts : List Type}
    (func : σ → Except ε (HList ts) × σ) : Filter σ ε ts :=
  ⟨func⟩

/-- `tup_one` (mod.rs lines 413-415): wraps an item into a one-element
tuple. -/
def tup_one {T : Type} (item : T) : HList [T] := (item, ())

/-- `filter_fn_one` (mod.rs lines 399-411): builds a filter from a
route-consuming function yielding a non-tuple item, mapping the successful
item through `tup_one`. -/
def filter_fn_one {σ ε β : Type} (func : σ → Except ε β × σ) : Filter σ ε [β] :=
  filter_fn (fun route =>
    let r := func route
    (r.1.map tup_one, r.2))

/-! Helper lemmas about the heterogeneous-list algebra. -/

theorem HList.toList_combine {ts us : List Type} (a : HList ts) (b : HList us) :
    (a.combine b).toList = a.toList ++ b.toList := by
  induction ts with
  | nil => simp [HList.combine, HList.toList]
  | cons t ts ih => simp [HList.combine, HList.toList, ih]

theorem HList.toList_length {ts : List Type} (a : HList ts) :
    a.toList.length = ts.length := by
  induction ts with
  | nil => simp [HList.toList]
  | cons t ts ih => simp [HList.toList, ih]

/-! Concrete leaf filters used to evaluate the theorems on explicit inputs.
The routing context is embedded as the list of remaining path segments
(numeric, for concreteness); leaf filters consume segments the way path
filters do. -/

/-- A path-segment match of arity 0: consumes the head segment when it
equals `7`, extracting nothing. -/
def segFixed : Filter (List Nat) String [] :=
  ⟨fun s =>
    match s with
    | seg :: rest => if seg = 7 then (.ok (), rest) else (.error "no match", s)
    | [] => (.error "no match", s)⟩

/-- A numeric path parameter of arity 1: consumes the head segment and
extracts it. -/
def segParam : Filter (List Nat) String [Nat] :=
  ⟨fun s =>
    match s with
    | seg :: rest => (.ok (one seg), rest)
    | [] => (.error "no match", s)⟩

/-- A second arity-1 leaf with the same index types as `segParam` but
different behavior, used to observe independence from the second operand
of a short-circuited `and`. -/
def segParamDouble : Filter (List Nat) String [Nat] :=
  ⟨fun s =>
    match s with
    | seg :: rest => (.ok (one (2 * seg)), rest)
    | [] => (.error "other", s)⟩

/-- A concrete rejection-unification structure over `String` failures. -/
def strRej : CombineRejection String String String :=
  ⟨fun e => e, fun e => e, fun _ e2 => e2⟩

/-- Claim C1: when both sides of `A.and(B)` succeed, the combined filter
extracts the flat concatenation of `A`'s elements followed by `B`'s
elements in their original order, of arity `m + n`, a unit-arity side
contributing no elements (the flat `toList` form rules out any nesting
such as `((), value)`). -/
theorem and_arity {σ ε1 ε2 ε : Type} {as bs : List Type}
    (A : Filter σ ε1 as) (B : Filter σ ε2 bs) (cr : CombineRejection ε1 ε2 ε)
    (s s1 s2 : σ) (a : HList as) (b : HList bs)
    (hA : A.filter s = (.ok a, s1)) (hB : B.filter s1 = (.ok b, s2)) :
    (A.and B cr).filter s = (.ok (a.combine b), s2) ∧
    (a.combine b).toList = a.toList ++ b.toList ∧
    (a.combine b).toList.length = as.length + bs.length := by
  refine ⟨?_, HList.toList_combine a b, ?_⟩
  · simp [Filter.and, hA, hB]
  · rw [HList.toList_combine, List.length_append, HList.toList_length, HList.toList_length]

/-- Witness for C1, the spec's concrete scenario: an arity-0 path-segment
match `and`-combined with an arity-1 numeric parameter extracts the flat
one-element tuple `(42,)`, not a nested `((), 42)`. -/
theorem and_arity_witness :
    (segFixed.and segParam strRej).filter [7, 42] = (.ok (42, ()), []) ∧
    (@HList.combine [] [Nat] () (42, ())).toList.length = 0 + 1 := by
  have h := and_arity segFixed segParam strRej [7, 42] [42] [] () (42, ()) rfl rfl
  exact ⟨h.1, h.2.2⟩

/-- Claim C2: when `A` fails, `A.and(B)` short-circuits: its outcome is
the unified form of `A`'s failure (with `A`'s context state), and it is
independent of the second operand, which is therefore never evaluated. -/
theorem and_short_circuit {σ ε1 ε2 ε : Type} {as bs : List Type}
    (A : Filter σ ε1 as) (B1 B2 : Filter σ ε2 bs) (cr : CombineRejection ε1 ε2 ε)
    (s s1 : σ) (e : ε1) (hA : A.filter s = (.error e, s1)) :
    (A.and B1 cr).filter s = (.error (cr.unifyLeft e), s1) ∧
    (A.and B1 cr).filter s = (A.and B2 cr).filter s := by
  constructor <;> simp [Filter.and, hA]

/-- Witness for C2: a failing segment match `and`-combined with two
observably different second filters gives the same failure either way. -/
theorem and_short_circuit_witness :
    (segFixed.and segParam strRej).filter [9, 1] = (.error "no match", [9, 1]) ∧
    (segFixed.and segParam strRej).filter [9, 1] =
      (segFixed.and segParamDouble strRej).filter [9, 1] := by
  have h := and_short_circuit segFixed segParam segParamDouble strRej [9, 1] [9, 1]
    "no match" rfl
  exact ⟨h.1, h.2⟩

/-- Claim C3: when `A` fails and `B` succeeds from the pipeline's original
starting context, `A.or(B)` evaluates `B` against the reset (original)
context and succeeds with `Either::Right` of `B`'s extracted value,
finishing in exactly the context state `B` alone would produce from the
original context. -/
theorem or_alternative_reset {σ ε1 ε2 ε : Type} {as bs : List Type}
    (A : Filter σ ε1 as) (B : Filter σ ε2 bs) (cr : CombineRejection ε1 ε2 ε)
    (s s1 s2 : σ) (e : ε1) (b : HList bs)
    (hA : A.filter s = (.error e, s1)) (hB : B.filter s = (.ok b, s2)) :
    (A.or B cr).filter s = (.ok (one (Either.right b)), s2) := by
  simp [Filter.or, hA, hB]

/-- Witness for C3: a failing fixed-segment match `or` a parameter
extractor succeeds with the right-tagged parameter taken from the
original, un-advanced context. -/
theorem or_alternative_reset_witness :
    (segFixed.or segParam strRej).filter [5, 3] =
      (.ok (one (Either.right (one 5))), [3]) :=
  or_alternative_reset segFixed segParam strRej [5, 3] [5, 3] [3] "no match" (one 5) rfl rfl

/-- Claim C4: `A.map(f)` has the same failure status and failure value as
`A` (being `Except.map`, it keeps every `error` unchanged and never
introduces one), on success yields the single-element tuple wrapping `f`
applied to `A`'s extracted values, and leaves the context state exactly as
`A` left it. -/
theorem map_purity {σ ε β : Type} {ts : List Type}
    (A : Filter σ ε ts) (f : HList ts → β) (s : σ) :
    ((A.map f).filter s).1 = Except.map (fun a => one (f a)) (A.filter s).1 ∧
    ((A.map f).filter s).2 = (A.filter s).2 := by
  have key : (A.map f).filter s =
      (Except.map (fun a => one (f a)) (A.filter s).1, (A.filter s).2) := by
    rcases h : A.filter s with ⟨r, s1⟩
    cases r <;> simp [Filter.map, h, Except.map]
  exact ⟨by rw [key], by rw [key]⟩

/-- Claim C5: `unify` (accepted only on a filter extracting exactly one
element of type `Either<T, T>`) collapses the tagged union by discarding
the tag — for both variants — succeeding with the carried tuple; it is a
pure total projection that never fails on its own: its failure status,
failure value and context state are exactly the inner filter's. -/
theorem unify_collapse {σ ε : Type} {ts : List Type}
    (A : Filter σ ε [Either (HList ts) (HList ts)]) (s : σ) :
    ((A.unify).filter s).1 = Except.map (fun x => Either.collapse x.1) (A.filter s).1 ∧
    ((A.unify).filter s).2 = (A.filter s).2 ∧
    (∀ t : HList ts, Either.collapse (Either.left t : Either (HList ts) (HList ts)) = t ∧
        Either.collapse (Either.right t : Either (HList ts) (HList ts)) = t) := by
  have key : (A.unify).filter s =
      (Except.map (fun x => Either.collapse x.1) (A.filter s).1, (A.filter s).2) := by
    rcases h : A.filter s with ⟨r, s1⟩
    cases r <;> simp [Filter.unify, h, Except.map]
  exact ⟨by rw [key], by rw [key], fun t => ⟨rfl, rfl⟩⟩

/-- Counterexample for C6: the extract demanded of `unit`'s input filter
by the bound at mod.rs line 57 is `((),)`, which is not the empty tuple
and does not have arity 0. -/
theorem unit_input_not_arity_zero :
    unitInputExtract ≠ [] ∧ unitInputExtract.length ≠ 0 := by
  constructor
  · simp [unitInputExtract]
  · simp [unitInputExtract]

/-- Claim C6 (amended): the Unit combinator accepts as input a filter
whose extracted tuple is `((),)` — the one-element tuple containing unit,
arity 1 — serving as a normalization step that is transparent on
evaluation so such filters can participate uniformly in wrapping/boxing
code paths. -/
theorem unit_normalization {σ ε : Type} (A : Filter σ ε unitInputExtract) (s : σ) :
    unitInputExtract.length = 1 ∧ (A.unit).filter s = A.filter s :=
  ⟨rfl, rfl⟩

/-- Claim C7: when the recovery computation never fails, `A.recover(f)`
never fails (every failure of `A` becomes a success); and when `A`
succeeds, recovery is not invoked and the outcome passes through
(left-tagged) with the context state untouched.  The callback's success
type `β` is unconstrained while its failure type equals `A`'s. -/
theorem recover_totality {σ ε β : Type} {as : List Type}
    (A : Filter σ ε as) (f : ε → Except ε β) (s : σ)
    (hf : ∀ e, (f e).isOk = true) :
    ((A.recover f).filter s).1.isOk = true ∧
    (∀ a s1, A.filter s = (.ok a, s1) →
      (A.recover f).filter s = (.ok (one (Either.left a)), s1)) := by
  constructor
  · rcases h : A.filter s with ⟨r, s1⟩
    cases r with
    | ok a => simp [Filter.recover, h, Except.isOk, Except.toBool]
    | error e =>
      have he := hf e
      cases hfe : f e with
      | ok b => simp [Filter.recover, h, hfe, Except.isOk, Except.toBool]
      | error e2 => rw [hfe] at he; simp [Except.isOk, Except.toBool] at he
  · intro a s1 hA
    simp [Filter.recover, hA]

/-- Witness for C7: recovering a failing segment match with a total
fallback yields a success. -/
theorem recover_totality_witness :
    ((segFixed.recover (fun _ => Except.ok 0)).filter [9]).1.isOk = true :=
  (recover_totality segFixed (fun _ => Except.ok 0) [9] (fun _ => rfl)).1

/-- Claim C8: `A.or_else(f)` passes `A`'s success through unchanged, and
on `A`'s failure yields the outcome of `f` applied to the failure value;
by its type, `f`'s computation succeeds with `A`'s original extracted
type and fails with `A`'s original failure type. -/
theorem or_else_passthrough {σ ε : Type} {ts : List Type}
    (A : Filter σ ε ts) (f : ε → Except ε (HList ts)) (s : σ) :
    (∀ a s1, A.filter s = (.ok a, s1) → (A.or_else f).filter s = (.ok a, s1)) ∧
    (∀ e s1, A.filter s = (.error e, s1) → (A.or_else f).filter s = (f e, s1)) := by
  constructor
  · intro a s1 h; simp [Filter.or_else, h]
  · intro e s1 h; simp [Filter.or_else, h]

/-- Witness for C8: a default is substituted on failure, and an ordinary
success passes through untouched. -/
theorem or_else_passthrough_witness :
    (segParam.or_else (fun _ => Except.ok (one 0))).filter [] = (.ok (one 0), []) ∧
    (segParam.or_else (fun _ => Except.ok (one 0))).filter [8] = (.ok (one 8), []) := by
  have h1 := or_else_passthrough segParam (fun _ => Except.ok (one 0)) []
  have h2 := or_else_passthrough segParam (fun _ => Except.ok (one 0)) [8]
  exact ⟨h1.2 "no match" [] rfl, h2.1 (one 8) [] rfl⟩

/-- Claim C9: with the same filter on both sides, `(A.or(A)).unify()`
yields on success exactly the value `A` alone would yield, and the
collapse discards the tag for both variants. -/
theorem unify_or_idempotent {σ ε1 ε : Type} {ts : List Type}
    (A : Filter σ ε1 ts) (cr : CombineRejection ε1 ε1 ε)
    (s s1 : σ) (a : HList ts) (hA : A.filter s = (.ok a, s1)) :
    ((A.or A cr).unify).filter s = (.ok a, s1) ∧
    (∀ t : HList ts, Either.collapse (Either.left t : Either (HList ts) (HList ts)) = t ∧
        Either.collapse (Either.right t : Either (HList ts) (HList ts)) = t) := by
  refine ⟨?_, fun t => ⟨rfl, rfl⟩⟩
  simp [Filter.or, Filter.unify, hA, Either.collapse, one]

/-- Witness for C9: `or`-ing a parameter extractor with itself and
unifying extracts the same value the extractor alone would. -/
theorem unify_or_idempotent_witness :
    ((segParam.or segParam strRej).unify).filter [5, 3] = (.ok (one 5), [3]) ∧
    Either.collapse (Either.left (one 5) : Either (HList [Nat]) (HList [Nat])) = one 5 := by
  have h := unify_or_idempotent segParam strRej [5, 3] [3] (one 5) rfl
  exact ⟨h.1, (h.2 (one 5)).1⟩

/-- Claim C10: `filter_fn_one(f)` succeeds with exactly the one-element
tuple `tup_one x` whenever `f`'s computation yields `x`, and fails with
exactly `f`'s error whenever `f`'s computation fails. -/
theorem filter_fn_one_tup {σ ε β : Type} (func : σ → Except ε β × σ) (s : σ) :
    (∀ x s1, func s = (.ok x, s1) →
      (filter_fn_one func).filter s = (.ok (tup_one x), s1)) ∧
    (∀ e s1, func s = (.error e, s1) →
      (filter_fn_one func).filter s = (.error e, s1)) := by
  constructor
  · intro x s1 h; simp [filter_fn_one, filter_fn, h, Except.map]
  · intro e s1 h; simp [filter_fn_one, filter_fn, h, Except.map]

/-- A concrete route-consuming function yielding a non-tuple item. -/
def succFn (n : Nat) : Except String Nat × Nat := (Except.ok (n + 1), n)

/-- Witness for C10: the successor function lifted by `filter_fn_one`
extracts the one-element tuple. -/
theorem filter_fn_one_tup_witness :
    (filter_fn_one succFn).filter 3 = (.ok (tup_one 4), 3) :=
  (filter_fn_one_tup succFn 3).1 4 3 rfl

end Warp
